import Mathlib

/-!
Shallow embedding of the `context_visualizer.api` aggregation layer of
iowarp/clio-core (files `topology.py`, `workers.py`, `system.py`,
`pools.py`, `config.py`) together with theorems settling the spec claims.

Raw per-container payloads are JSON-like values.  The embedding keeps the
fields the code reads as typed `Option` fields on a record type `Entry`
(a Python dict), models a record missing from a payload as `none`, and
models Python exceptions (`ValueError` from `int(...)`, `AttributeError`
from `.get` on a non-dict) through `Except` / explicit `crash` results.
-/

namespace ClioViz

/-- A value stored under the `node_id` key of a raw record: the code only
meets integers and strings there (`int(raw_nid)` / `str(nid)`). -/
inductive JVal where
  | jint (n : Int)
  | jstr (s : String)
deriving DecidableEq, Repr

/-- A raw record (a Python dict), with the fields the code reads via
`.get`; `none` means the key is absent. -/
structure Entry where
  node_id : Option JVal := none
  event_id : Option Int := none
  hostname : Option String := none
  ip_address : Option String := none
  cpu_usage_pct : Option Int := none
  ram_usage_pct : Option Int := none
  gpu_count : Option Int := none
  gpu_usage_pct : Option Int := none
  hbm_usage_pct : Option Int := none
  queued : Option Int := none
  blocked : Option Int := none
  processed : Option Int := none
deriving DecidableEq, Repr

/-- One container's raw payload: a list, a single record (dict), or
anything else (null, number, string, ...). -/
inductive PyVal where
  | plist (xs : List PyVal)
  | pdict (e : Entry)
  | pother
deriving Repr

/-- `mapping[container_id -> RawReport]` as an insertion-ordered
association list, matching Python dict iteration order. -/
abbrev RawMap := List (String × PyVal)

/-! ### Python `int(...)` and `str(...)` on the values the code meets -/

/-- Characters stripped by Python `int(str)` around the literal. -/
def isPySpace (c : Char) : Bool :=
  c = ' ' || c = '\t' || c = '\n' || c = '\r' || c = '\x0b' || c = '\x0c'

/-- Strip leading and trailing whitespace from a character list. -/
def trimChars (l : List Char) : List Char :=
  ((l.dropWhile isPySpace).reverse.dropWhile isPySpace).reverse

/-- Value of a digit string. -/
def digitsVal (l : List Char) : Nat :=
  l.foldl (fun a c => a * 10 + (c.toNat - 48)) 0

/-- Parse a nonempty all-digit character list. -/
def parseDigits (l : List Char) : Option Nat :=
  if l.isEmpty then none
  else if l.all Char.isDigit then some (digitsVal l)
  else none

/-- Python `int(s)` on an ASCII decimal string literal: strip whitespace,
optional sign, nonempty digit run; `none` models a raised `ValueError`. -/
def pyIntOfString (s : String) : Option Int :=
  match trimChars s.toList with
  | '+' :: rest => (parseDigits rest).map Int.ofNat
  | '-' :: rest => (parseDigits rest).map (fun n => -(Int.ofNat n))
  | l => (parseDigits l).map Int.ofNat

/-- Python `int(v)` for a `node_id` value; `none` models `ValueError`. -/
def pyInt : JVal → Option Int
  | .jint n => some n
  | .jstr s => pyIntOfString s

/-- Python `str(v)` for a `node_id` value. -/
def strOfJVal : JVal → String
  | .jint n => toString n
  | .jstr s => s

/-! ### Report normalization (`workers.py` lines 18-23, `topology.py`
lines 24-25) -/

/-- `workers.py` / `system.py` flattening of one container's payload:
a list is extended element-wise, a dict is appended as one element,
anything else is skipped. -/
def normalizeWorkers : PyVal → List PyVal
  | .plist xs => xs
  | .pdict e => [.pdict e]
  | .pother => []

/-- `topology.py` normalization of one container's payload: only lists
are iterated (`if not isinstance(entries, list): continue`); a single
dict or any other shape is skipped whole. -/
def normalizeTopo : PyVal → List PyVal
  | .plist xs => xs
  | .pdict _ => []
  | .pother => []

/-- Flattened worker list: `workers = []; for _cid, data in raw.items(): ...`. -/
def flattenWorkers (raw : RawMap) : List PyVal :=
  raw.flatMap (fun p => normalizeWorkers p.2)

/-- The `(container_id, entry)` pairs the topology loop visits: containers
whose payload is a list, elements that are dicts
(`if not isinstance(entry, dict): continue`). -/
def topoRecords (raw : RawMap) : List (String × Entry) :=
  raw.flatMap (fun p =>
    (normalizeTopo p.2).filterMap (fun x =>
      match x with
      | .pdict e => some (p.1, e)
      | _ => none))

/-! ### Node reconciliation (`topology.py` lines 22-37) -/

/-- `entry.get("event_id", 0)`. -/
def evOf (e : Entry) : Int := e.event_id.getD 0

/-- Identity key of a record: `nid = entry.get("node_id")`; if `None`,
`nid = cid`; then `nid_str = str(nid)` (a container id is already a
string). -/
def keyOf (cid : String) (e : Entry) : String :=
  match e.node_id with
  | some v => strOfJVal v
  | none => cid

/-- The working `nodes` dict as an insertion-ordered association list. -/
abbrev Nodes := List (String × Entry)

/-- First-match lookup, Python `nodes.get(nid_str)`. -/
def lookupA : Nodes → String → Option Entry
  | [], _ => none
  | (k, v) :: rest, key => if k = key then some v else lookupA rest key

/-- Overwrite the value stored at a key in place (Python assignment to an
existing dict key keeps its position). -/
def replaceA : Nodes → String → Entry → Nodes
  | [], _, _ => []
  | (k, v) :: rest, key, e =>
    if k = key then (k, e) :: rest else (k, v) :: replaceA rest key e

/-- `prev = nodes.get(nid_str); if prev is None or
entry.get("event_id", 0) > prev.get("event_id", 0): nodes[nid_str] = entry`. -/
def updNodes (nodes : Nodes) (key : String) (e : Entry) : Nodes :=
  match lookupA nodes key with
  | none => nodes ++ [(key, e)]
  | some prev => if evOf e > evOf prev then replaceA nodes key e else nodes

/-- One iteration of the reconciliation loop applied to a visited
`(container_id, entry)` record. -/
def stepNodes (nodes : Nodes) (r : String × Entry) : Nodes :=
  updNodes nodes (keyOf r.1 r.2) r.2

/-- The whole reconciliation loop over the visited records. -/
def buildNodes (recs : List (String × Entry)) : Nodes :=
  recs.foldl stepNodes []

/-- The records a given identity key receives, in visit order. -/
def entriesFor (k : String) (recs : List (String × Entry)) : List Entry :=
  (recs.filter (fun r => keyOf r.1 r.2 = k)).map Prod.snd

/-- One comparison step of the keep-the-latest policy. -/
def keepLater (acc : Option Entry) (e : Entry) : Option Entry :=
  match acc with
  | none => some e
  | some p => if evOf e > evOf p then some e else some p

/-- The record that survives a sequence of candidates for one key. -/
def firstMax (l : List Entry) : Option Entry :=
  l.foldl keepLater none

/-! ### Output construction (`topology.py` lines 39-64) -/

/-- The canonical record exposed per node. -/
structure NodeStat where
  node_id : Int
  hostname : String
  ip_address : String
  cpu_usage_pct : Int
  ram_usage_pct : Int
  gpu_count : Int
  gpu_usage_pct : Int
  hbm_usage_pct : Int
deriving DecidableEq, Repr

/-- Fields of the response dict built from a surviving entry;
`entry.get("hostname") or local_hostname` falls back on a missing or
empty (falsy) hostname. -/
def statBody (localHostname : String) (nid : Int) (e : Entry) : NodeStat :=
  { node_id := nid
    hostname :=
      match e.hostname with
      | none => localHostname
      | some s => if s = "" then localHostname else s
    ip_address := e.ip_address.getD ""
    cpu_usage_pct := e.cpu_usage_pct.getD 0
    ram_usage_pct := e.ram_usage_pct.getD 0
    gpu_count := e.gpu_count.getD 0
    gpu_usage_pct := e.gpu_usage_pct.getD 0
    hbm_usage_pct := e.hbm_usage_pct.getD 0 }

/-- Build one response record: `raw_nid = entry.get("node_id")`; if
present, `node_id = int(raw_nid)` — unguarded, so an unparseable value
raises `ValueError`; if absent, `int(nid_str)` guarded by
`except (ValueError, TypeError): node_id = 0`. -/
def mkStat (localHostname : String) (k : String) (e : Entry) :
    Except String NodeStat :=
  match e.node_id with
  | some v =>
    match pyInt v with
    | some n => .ok (statBody localHostname n e)
    | none => .error "ValueError"
  | none => .ok (statBody localHostname ((pyIntOfString k).getD 0) e)

/-- The result-building loop; the first raised exception aborts it. -/
def buildResult (localHostname : String) : Nodes → Except String (List NodeStat)
  | [] => .ok []
  | (k, e) :: rest =>
    match mkStat localHostname k e with
    | .error m => .error m
    | .ok s =>
      match buildResult localHostname rest with
      | .error m => .error m
      | .ok ss => .ok (s :: ss)

/-- Outcome of `GET /api/topology`: the 503 error body on fetch failure,
an unhandled exception, or the 200 node list. -/
inductive TopoResult where
  | fetchError (msg : String)
  | crash (msg : String)
  | ok (nodes : List NodeStat)
deriving DecidableEq, Repr

/-- `get_topology` from `topology.py`, as a function of the local
hostname (`socket.gethostname()`) and of the Telemetry Source fetch
outcome. -/
def get_topology (localHostname : String)
    (fetch : Except String RawMap) : TopoResult :=
  match fetch with
  | .error e => .fetchError e
  | .ok raw =>
    match buildResult localHostname (buildNodes (topoRecords raw)) with
    | .error m => .crash m
    | .ok stats => .ok stats

/-! ### Worker aggregation (`workers.py`, `system.py`) -/

/-- `w.get(field, 0)` on a flattened element: a `.get` on a non-dict
raises `AttributeError`. -/
def pyGetInt (f : Entry → Option Int) : PyVal → Except String Int
  | .pdict e => .ok ((f e).getD 0)
  | _ => .error "AttributeError"

/-- `sum(w.get(field, 0) for w in workers)`, evaluated left to right,
aborted by the first raised exception. -/
def sumField (f : Entry → Option Int) : List PyVal → Except String Int
  | [] => .ok 0
  | w :: ws =>
    match pyGetInt f w with
    | .error m => .error m
    | .ok n =>
      match sumField f ws with
      | .error m => .error m
      | .ok t => .ok (n + t)

/-- The 200 body of `GET /api/workers`. -/
structure WorkersOk where
  workers : List PyVal
  count : Nat
  queued : Int
  blocked : Int
  processed : Int

/-- Outcome of `GET /api/workers`. -/
inductive WorkersResult where
  | fetchError (msg : String)
  | crash (msg : String)
  | ok (r : WorkersOk)

/-- `get_workers` from `workers.py`, as a function of the Telemetry
Source fetch outcome. -/
def get_workers (fetch : Except String RawMap) : WorkersResult :=
  match fetch with
  | .error e => .fetchError e
  | .ok raw =>
    let ws := flattenWorkers raw
    match sumField (fun e => e.queued) ws with
    | .error m => .crash m
    | .ok q =>
      match sumField (fun e => e.blocked) ws with
      | .error m => .crash m
      | .ok b =>
        match sumField (fun e => e.processed) ws with
        | .error m => .crash m
        | .ok p => .ok ⟨ws, ws.length, q, b, p⟩

/-- The 200 body of `GET /api/system`; the success path always sets
`info["connected"] = True`. -/
structure SystemOk where
  connected : Bool
  workers : Nat
  queued : Int
  blocked : Int
  processed : Int
deriving DecidableEq

/-- Outcome of `GET /api/system`: the 503 body carries a connectivity
flag and the error string. -/
inductive SystemResult where
  | err (connected : Bool) (msg : String)
  | crash (msg : String)
  | ok (r : SystemOk)
deriving DecidableEq

/-- `get_system` from `system.py`, as a function of the prior
`chimaera_client.is_connected()` state and of the fetch outcome: both
branches attempt the same fetch, and on failure report `connected` as
`False` in the first branch and `True` in the second. -/
def get_system (isConn : Bool) (fetch : Except String RawMap) : SystemResult :=
  match fetch with
  | .error e => .err isConn e
  | .ok raw =>
    let ws := flattenWorkers raw
    match sumField (fun e => e.queued) ws with
    | .error m => .crash m
    | .ok q =>
      match sumField (fun e => e.blocked) ws with
      | .error m => .crash m
      | .ok b =>
        match sumField (fun e => e.processed) ws with
        | .error m => .crash m
        | .ok p => .ok ⟨true, ws.length, q, b, p⟩

/-! ### Pools and config (`pools.py`, `config.py`) -/

/-- One `compose` entry of the YAML config, with the four keys
`get_pools` reads; `none` means the key is absent. -/
structure PoolEntry where
  mod_name : Option String := none
  pool_name : Option String := none
  pool_id : Option String := none
  pool_query : Option String := none
deriving DecidableEq

/-- The `compose` key of a parsed config mapping. -/
inductive ComposeVal where
  | absent
  | cnull
  | clist (entries : List PoolEntry)
deriving DecidableEq

/-- A parsed, non-null YAML document: a mapping (with its `compose`
key), or any other YAML value — on which `cfg.get` raises
`AttributeError`. -/
inductive Cfg where
  | cdict (compose : ComposeVal)
  | cother
deriving DecidableEq

/-- The environment `_load_config` queries: the two environment
variables, the home-directory candidate path, and the file system.
`files p = none` means `p` is not a file; `files p = some none` means
the file parses to YAML `null` (e.g. an empty file, for which
`yaml.safe_load` returns `None`); `files p = some (some c)` means it
parses to `c`. -/
structure ConfigEnv where
  chi_server_conf : Option String
  wrp_runtime_conf : Option String
  home_conf : String
  files : String → Option (Option Cfg)

/-- The candidate list of `_load_config`, in search order. -/
def candidatePaths (env : ConfigEnv) : List (Option String) :=
  [env.chi_server_conf, env.wrp_runtime_conf, some env.home_conf]

/-- The loop of `_load_config`: `if path and os.path.isfile(path)` —
the candidate must be set and nonempty (truthy) and be a file; the
first hit's parsed value is returned, which may itself be `None`. -/
def loadFrom (files : String → Option (Option Cfg)) :
    List (Option String) → Option Cfg
  | [] => none
  | c :: rest =>
    match c with
    | none => loadFrom files rest
    | some p =>
      if p = "" then loadFrom files rest
      else
        match files p with
        | none => loadFrom files rest
        | some y => y

/-- `_load_config` from `config.py`. -/
def load_config (env : ConfigEnv) : Option Cfg :=
  loadFrom env.files (candidatePaths env)

/-- The parsed content of the first config source that is found, kept
apart from its `null`ness: `none` when no candidate is a file. Follows
the spec's notion of a config source being found. -/
def firstFound (files : String → Option (Option Cfg)) :
    List (Option String) → Option (Option Cfg)
  | [] => none
  | c :: rest =>
    match c with
    | none => firstFound files rest
    | some p =>
      if p = "" then firstFound files rest
      else
        match files p with
        | none => firstFound files rest
        | some y => some y

/-- Whether some config source is found at all.  Follows the spec's
words for the `GetPools` "not found" condition. -/
def configFound (env : ConfigEnv) : Bool :=
  (firstFound env.files (candidatePaths env)).isSome

/-- One pool descriptor of the 200 body of `GET /api/pools`. -/
structure PoolDesc where
  mod_name : String
  pool_name : String
  pool_id : String
  pool_query : String
deriving DecidableEq

/-- Outcome of `GET /api/pools`: the 404 body, an unhandled exception,
or the 200 descriptor list. -/
inductive PoolsResult where
  | notFound
  | crash (msg : String)
  | ok (pools : List PoolDesc)
deriving DecidableEq

/-- `compose = cfg.get("compose", []) or []`. -/
def composeEntries : ComposeVal → List PoolEntry
  | .absent => []
  | .cnull => []
  | .clist es => es

/-- The descriptor built from one compose entry, each field defaulting
to the empty string. -/
def mkDesc (e : PoolEntry) : PoolDesc :=
  ⟨e.mod_name.getD "", e.pool_name.getD "", e.pool_id.getD "",
    e.pool_query.getD ""⟩

/-- `get_pools` from `pools.py`: a `None` config (not found, or found
but parsed to `null`) yields the 404 result; a non-mapping config makes
`cfg.get` raise. -/
def get_pools (env : ConfigEnv) : PoolsResult :=
  match load_config env with
  | none => .notFound
  | some .cother => .crash "AttributeError"
  | some (.cdict comp) => .ok ((composeEntries comp).map mkDesc)

/-! ### Spec-side companion definitions (for refinement comparisons) -/

/-- Spec-side total: the sum of a field over the flattened list, a
missing field contributing `0` (a non-record element also counted as
`0`; on any run that produces output the list holds records only). -/
def specSum (f : Entry → Option Int) (ws : List PyVal) : Int :=
  (ws.map (fun w =>
    match w with
    | .pdict e => (f e).getD 0
    | _ => 0)).sum

/-- Spec-side (amended) hostname rule: the surviving record's hostname
when present and nonempty, the local default otherwise. -/
def specHostname (dflt : String) (e : Entry) : String :=
  match e.hostname with
  | none => dflt
  | some s => if s = "" then dflt else s

/-- Whether a flattened element is a record. -/
def isRecord : PyVal → Bool
  | .pdict _ => true
  | _ => false

/-! ### Concrete inputs used by witnesses and counterexamples -/

/-- First record of the spec's §8 reconciliation example. -/
def entrySpecA : Entry :=
  { node_id := some (.jint 1), event_id := some 5, cpu_usage_pct := some 10 }

/-- Second record of the spec's §8 reconciliation example. -/
def entrySpecB : Entry :=
  { node_id := some (.jint 1), event_id := some 7, cpu_usage_pct := some 20 }

/-- The spec's §8 reconciliation example as a per-container mapping. -/
def rawSpecExample : RawMap :=
  [("c1", .plist [.pdict entrySpecA]), ("c2", .plist [.pdict entrySpecB])]

/-- A container whose whole payload is a single record. -/
def rawSingleDict : RawMap := [("c", .pdict { queued := some 1 })]

/-- The fresher record of `rawHostnameCex`, with no hostname. -/
def entryFreshNoHost : Entry := { event_id := some 5 }

/-- The staler record of `rawHostnameCex`, carrying a hostname. -/
def entryStaleWithHost : Entry := { event_id := some 3, hostname := some "host-b" }

/-- The per-container mapping for the hostname counterexample. -/
def rawHostnameCex : RawMap :=
  [("c", .plist [.pdict entryFreshNoHost, .pdict entryStaleWithHost])]

/-- A record whose `node_id` is present but not parseable as an
integer. -/
def rawStringNodeId : RawMap :=
  [("c1", .plist [.pdict { node_id := some (.jstr "abc") }])]

/-- The spec's §8 worker example, plus a single-record container. -/
def rawWorkersEx : RawMap :=
  [("c1", .plist [.pdict { queued := some 2, processed := some 5 }, .pdict { blocked := some 1 }]),
   ("c2", .pdict { queued := some 3 })]

/-- A config environment whose first candidate file exists but parses
to YAML `null`. -/
def envNullCfg : ConfigEnv :=
  { chi_server_conf := some "/etc/chimaera.yaml"
    wrp_runtime_conf := none
    home_conf := "/home/u/.chimaera/chimaera.yaml"
    files := fun p => if p = "/etc/chimaera.yaml" then some none else none }

/-- A config environment with no candidate file at all. -/
def envNoCfg : ConfigEnv :=
  { chi_server_conf := none
    wrp_runtime_conf := none
    home_conf := "/home/u/.chimaera/chimaera.yaml"
    files := fun _ => none }

/-- A config environment whose config mapping has no `compose` key. -/
def envAbsentCompose : ConfigEnv :=
  { chi_server_conf := some "/etc/chimaera.yaml"
    wrp_runtime_conf := none
    home_conf := "/home/u/.chimaera/chimaera.yaml"
    files := fun p =>
      if p = "/etc/chimaera.yaml" then some (some (.cdict .absent)) else none }

/-- A config environment whose config mapping has a `null` `compose`
key. -/
def envNullCompose : ConfigEnv :=
  { chi_server_conf := some "/etc/chimaera.yaml"
    wrp_runtime_conf := none
    home_conf := "/home/u/.chimaera/chimaera.yaml"
    files := fun p =>
      if p = "/etc/chimaera.yaml" then some (some (.cdict .cnull)) else none }

/-- A fully populated compose entry. -/
def poolEntryFull : PoolEntry :=
  { mod_name := some "m", pool_name := some "p", pool_id := some "1", pool_query := some "q" }

/-- A config environment with two compose entries, one fully populated
and one empty. -/
def envTwoPools : ConfigEnv :=
  { chi_server_conf := some "/etc/chimaera.yaml"
    wrp_runtime_conf := none
    home_conf := "/home/u/.chimaera/chimaera.yaml"
    files := fun p =>
      if p = "/etc/chimaera.yaml" then
        some (some (.cdict (.clist [poolEntryFull, {}])))
      else none }

/-! ## Lemmas about the reconciliation map -/

/-- The keys of the working map. -/
def keysOf (nodes : Nodes) : List String := nodes.map Prod.fst

theorem lookupA_append (nodes : Nodes) (k0 : String) (e : Entry) (k : String) :
    lookupA (nodes ++ [(k0, e)]) k =
      match lookupA nodes k with
      | some v => some v
      | none => if k0 = k then some e else none := by
  induction nodes with
  | nil => simp [lookupA]
  | cons kv rest ih =>
    obtain ⟨k1, v1⟩ := kv
    by_cases h : k1 = k
    · simp [lookupA, h]
    · simpa [lookupA, h] using ih

theorem lookupA_replaceA_isSome (nodes : Nodes) (k : String) (e : Entry)
    (h : (lookupA nodes k).isSome) : lookupA (replaceA nodes k e) k = some e := by
  induction nodes with
  | nil => simp [lookupA] at h
  | cons kv rest ih =>
    obtain ⟨k1, v1⟩ := kv
    by_cases hk : k1 = k
    · simp [replaceA, lookupA, hk]
    · simp [lookupA, hk] at h
      simpa [replaceA, lookupA, hk] using ih h

theorem lookupA_replaceA_other (nodes : Nodes) (k0 : String) (e : Entry)
    (k : String) (h : k ≠ k0) :
    lookupA (replaceA nodes k0 e) k = lookupA nodes k := by
  induction nodes with
  | nil => simp [replaceA]
  | cons kv rest ih =>
    obtain ⟨k1, v1⟩ := kv
    by_cases hk : k1 = k0
    · subst hk
      have hne : ¬ k1 = k := fun hh => h hh.symm
      simp [replaceA, lookupA, hne]
    · simp only [replaceA, if_neg hk]
      by_cases hk1 : k1 = k
      · simp [lookupA, hk1]
      · simpa [lookupA, hk1] using ih

theorem lookupA_updNodes_self (nodes : Nodes) (k : String) (e : Entry) :
    lookupA (updNodes nodes k e) k = keepLater (lookupA nodes k) e := by
  unfold updNodes keepLater
  cases hl : lookupA nodes k with
  | none => simp [lookupA_append, hl]
  | some p =>
    by_cases hev : evOf e > evOf p
    · simp [hev, lookupA_replaceA_isSome nodes k e (by simp [hl])]
    · simp [hev, hl]

theorem lookupA_updNodes_other (nodes : Nodes) (k0 : String) (e : Entry)
    (k : String) (h : k ≠ k0) :
    lookupA (updNodes nodes k0 e) k = lookupA nodes k := by
  unfold updNodes
  cases hl : lookupA nodes k0 with
  | none =>
    have hne : ¬ k0 = k := fun hh => h hh.symm
    rw [lookupA_append]
    cases lookupA nodes k <;> simp [hne]
  | some p =>
    by_cases hev : evOf e > evOf p
    · simp [hev, lookupA_replaceA_other nodes k0 e k h]
    · simp [hev]

theorem lookupA_foldl_stepNodes (recs : List (String × Entry)) :
    ∀ (nodes : Nodes) (k : String),
      lookupA (recs.foldl stepNodes nodes) k =
        (entriesFor k recs).foldl keepLater (lookupA nodes k) := by
  induction recs with
  | nil => intro nodes k; simp [entriesFor]
  | cons r rest ih =>
    intro nodes k
    obtain ⟨cid, e⟩ := r
    by_cases hk : keyOf cid e = k
    · have h1 : lookupA (stepNodes nodes (cid, e)) k =
          keepLater (lookupA nodes k) e := by
        simpa [stepNodes, hk] using lookupA_updNodes_self nodes k e
      simp only [List.foldl_cons, ih, h1, entriesFor, List.filter_cons,
        decide_eq_true_eq, hk, if_pos rfl]
      simp [entriesFor]
    · have h1 : lookupA (stepNodes nodes (cid, e)) k = lookupA nodes k := by
        simpa [stepNodes] using
          lookupA_updNodes_other nodes (keyOf cid e) e k (fun hh => hk hh.symm)
      simp only [List.foldl_cons, ih, h1]
      simp [entriesFor, List.filter_cons, hk]

theorem lookupA_buildNodes (recs : List (String × Entry)) (k : String) :
    lookupA (buildNodes recs) k = firstMax (entriesFor k recs) := by
  simpa [buildNodes, firstMax, lookupA] using
    lookupA_foldl_stepNodes recs [] k

theorem lookupA_eq_none_iff (nodes : Nodes) (k : String) :
    lookupA nodes k = none ↔ k ∉ keysOf nodes := by
  induction nodes with
  | nil => simp [lookupA, keysOf]
  | cons kv rest ih =>
    obtain ⟨k1, v1⟩ := kv
    by_cases hk : k1 = k
    · subst hk
      simp [lookupA, keysOf]
    · have hne : ¬ k = k1 := fun hh => hk hh.symm
      simp [lookupA, keysOf, hk, hne] at ih ⊢
      exact ih

theorem keysOf_replaceA (nodes : Nodes) (k : String) (e : Entry) :
    keysOf (replaceA nodes k e) = keysOf nodes := by
  induction nodes with
  | nil => simp [replaceA]
  | cons kv rest ih =>
    obtain ⟨k1, v1⟩ := kv
    by_cases hk : k1 = k
    · simp [replaceA, hk, keysOf]
    · simp [replaceA, hk, keysOf] at ih ⊢
      exact ih

theorem keysOf_updNodes_nodup (nodes : Nodes) (k : String) (e : Entry)
    (h : (keysOf nodes).Nodup) : (keysOf (updNodes nodes k e)).Nodup := by
  unfold updNodes
  cases hl : lookupA nodes k with
  | none =>
    have hk : k ∉ keysOf nodes := (lookupA_eq_none_iff nodes k).mp hl
    simp [keysOf, List.nodup_append]
    simp [keysOf] at h hk
    exact ⟨h, hk⟩
  | some p =>
    by_cases hev : evOf e > evOf p
    · simpa [hev, keysOf_replaceA] using h
    · simpa [hev] using h

theorem keysOf_buildNodes_nodup (recs : List (String × Entry)) :
    (keysOf (buildNodes recs)).Nodup := by
  have main : ∀ (l : List (String × Entry)) (nodes : Nodes),
      (keysOf nodes).Nodup → (keysOf (l.foldl stepNodes nodes)).Nodup := by
    intro l
    induction l with
    | nil => intro nodes h; simpa using h
    | cons r rest ih =>
      intro nodes h
      exact ih _ (keysOf_updNodes_nodup nodes (keyOf r.1 r.2) r.2 h)
  simpa [buildNodes] using main recs [] (by simp [keysOf])

/-! ## The surviving record is the first one of maximal `event_id` -/

theorem keepLater_isSome (acc : Option Entry) (e : Entry) :
    (keepLater acc e).isSome := by
  cases acc with
  | none => simp [keepLater]
  | some p =>
    by_cases hev : evOf e > evOf p <;> simp [keepLater, hev]

theorem foldl_keepLater_eq_none (l : List Entry) (acc : Option Entry)
    (h : l.foldl keepLater acc = none) : acc = none ∧ l = [] := by
  cases l with
  | nil => exact ⟨h, rfl⟩
  | cons x rest =>
    exfalso
    have h2 : ∀ (m : List Entry) (a : Option Entry), a.isSome →
        (m.foldl keepLater a).isSome := by
      intro m
      induction m with
      | nil => intro a ha; simpa using ha
      | cons y ys ih => intro a _; exact ih _ (keepLater_isSome a y)
    have := h2 rest (keepLater acc x) (keepLater_isSome acc x)
    rw [List.foldl_cons] at h
    rw [h] at this
    simp at this

theorem foldl_keepLater_spec (l : List Entry) :
    ∀ (acc : Option Entry) (e : Entry), l.foldl keepLater acc = some e →
      (acc = some e ∧ ∀ x ∈ l, evOf x ≤ evOf e) ∨
      (∃ l1 l2, l = l1 ++ e :: l2 ∧
        (∀ p, acc = some p → evOf p < evOf e) ∧
        (∀ x ∈ l1, evOf x < evOf e) ∧ (∀ x ∈ l2, evOf x ≤ evOf e)) := by
  induction l with
  | nil =>
    intro acc e h
    exact Or.inl ⟨h, by simp⟩
  | cons y rest ih =>
    intro acc e h
    rw [List.foldl_cons] at h
    rcases ih (keepLater acc y) e h with ⟨hacc, hle⟩ | ⟨l1, l2, heq, hacc, hl1, hl2⟩
    · -- the head (or the incoming accumulator) already is the survivor
      cases acc with
      | none =>
        have hy : y = e := by simpa [keepLater] using hacc
        subst hy
        exact Or.inr ⟨[], rest, by simp, by simp, by simp, hle⟩
      | some p =>
        by_cases hev : evOf y > evOf p
        · have hy : y = e := by simpa [keepLater, hev] using hacc
          subst hy
          exact Or.inr ⟨[], rest,
            by simp, by intro q hq; cases hq; omega, by simp, hle⟩
        · have hp : p = e := by simpa [keepLater, hev] using hacc
          subst hp
          refine Or.inl ⟨rfl, ?_⟩
          intro x hx
          rcases List.mem_cons.mp hx with hx | hx
          · subst hx; omega
          · exact hle x hx
    · -- the survivor comes from the tail
      have hylt : evOf y < evOf e ∧ ∀ p, acc = some p → evOf p < evOf e := by
        cases acc with
        | none =>
          refine ⟨?_, by intro p hp; cases hp⟩
          exact hacc y (by simp [keepLater])
        | some p =>
          by_cases hev : evOf y > evOf p
          · have := hacc y (by simp [keepLater, hev])
            exact ⟨this, by intro q hq; cases hq; omega⟩
          · have hp := hacc p (by simp [keepLater, hev])
            exact ⟨by omega, by intro q hq; cases hq; omega⟩
      refine Or.inr ⟨y :: l1, l2, by simp [heq], hylt.2, ?_, hl2⟩
      intro x hx
      rcases List.mem_cons.mp hx with hx | hx
      · subst hx; exact hylt.1
      · exact hl1 x hx

theorem firstMax_spec (l : List Entry) (e : Entry) (h : firstMax l = some e) :
    ∃ l1 l2, l = l1 ++ e :: l2 ∧
      (∀ x ∈ l1, evOf x < evOf e) ∧ (∀ x ∈ l2, evOf x ≤ evOf e) := by
  rcases foldl_keepLater_spec l none e h with ⟨hacc, _⟩ | ⟨l1, l2, heq, _, hl1, hl2⟩
  · cases hacc
  · exact ⟨l1, l2, heq, hl1, hl2⟩

theorem firstMax_eq_none (l : List Entry) (h : firstMax l = none) : l = [] :=
  (foldl_keepLater_eq_none l none h).2

/-! ## Lemmas about output construction and sums -/

theorem mkStat_ok (lh k : String) (e : Entry) (s : NodeStat)
    (h : mkStat lh k e = .ok s) : ∃ n, s = statBody lh n e := by
  unfold mkStat at h
  split at h
  · split at h
    · exact ⟨_, (Except.ok.inj h).symm⟩
    · cases h
  · exact ⟨_, (Except.ok.inj h).symm⟩

theorem buildResult_ok (lh : String) :
    ∀ (nodes : Nodes) (stats : List NodeStat),
      buildResult lh nodes = .ok stats →
      List.Forall₂ (fun (ke : String × Entry) s => ∃ n, s = statBody lh n ke.2)
        nodes stats := by
  intro nodes
  induction nodes with
  | nil =>
    intro stats h
    cases h
    exact List.Forall₂.nil
  | cons ke rest ih =>
    intro stats h
    obtain ⟨k, e⟩ := ke
    unfold buildResult at h
    cases hm : mkStat lh k e with
    | error m => rw [hm] at h; cases h
    | ok s =>
      rw [hm] at h
      cases hr : buildResult lh rest with
      | error m => rw [hr] at h; cases h
      | ok ss =>
        rw [hr] at h
        cases h
        exact List.Forall₂.cons (mkStat_ok lh k e s hm) (ih ss hr)

theorem sumField_ok (f : Entry → Option Int) :
    ∀ (ws : List PyVal) (t : Int), sumField f ws = .ok t → t = specSum f ws := by
  intro ws
  induction ws with
  | nil =>
    intro t h
    cases h
    simp [specSum]
  | cons w rest ih =>
    intro t h
    unfold sumField at h
    cases hg : pyGetInt f w with
    | error m => rw [hg] at h; cases h
    | ok n =>
      rw [hg] at h
      cases hr : sumField f rest with
      | error m => rw [hr] at h; cases h
      | ok t0 =>
        rw [hr] at h
        cases h
        cases w with
        | pdict e =>
          simp [pyGetInt] at hg
          simp [specSum] at ih ⊢
          rw [← hg, ih t0 hr]
        | plist xs => simp [pyGetInt] at hg
        | pother => simp [pyGetInt] at hg

theorem loadFrom_eq_join (files : String → Option (Option Cfg)) :
    ∀ (cs : List (Option String)),
      loadFrom files cs = (firstFound files cs).join := by
  intro cs
  induction cs with
  | nil => simp [loadFrom, firstFound]
  | cons c rest ih =>
    cases c with
    | none => simpa [loadFrom, firstFound] using ih
    | some p =>
      by_cases hp : p = ""
      · simpa [loadFrom, firstFound, hp] using ih
      · cases hf : files p with
        | none => simpa [loadFrom, firstFound, hp, hf] using ih
        | some y => simp [loadFrom, firstFound, hp, hf]

theorem get_pools_notFound_iff_load_none (env : ConfigEnv) :
    get_pools env = .notFound ↔ load_config env = none := by
  unfold get_pools
  cases hl : load_config env with
  | none => simp
  | some c => cases c <;> simp

/-! ## Claim theorems -/

/-- C1: for every per-container input mapping, the reconciled node map
holds at most one record per derived identity key, and the record stored
under a key is a record that was visited with that key, has the maximum
`event_id` (missing `event_id` counting as `0`) among all records
visited with that key, and is the first-visited among those achieving
that maximum: every earlier candidate is strictly smaller, every later
one is less than or equal. -/
theorem nodeReconciler_dedup_freshest (raw : RawMap) :
    (keysOf (buildNodes (topoRecords raw))).Nodup ∧
    (∀ k, lookupA (buildNodes (topoRecords raw)) k = none →
      entriesFor k (topoRecords raw) = []) ∧
    (∀ k e, lookupA (buildNodes (topoRecords raw)) k = some e →
      ∃ l1 l2, entriesFor k (topoRecords raw) = l1 ++ e :: l2 ∧
        (∀ x ∈ l1, evOf x < evOf e) ∧ (∀ x ∈ l2, evOf x ≤ evOf e)) := by
  refine ⟨keysOf_buildNodes_nodup _, ?_, ?_⟩
  · intro k h
    exact firstMax_eq_none _ ((lookupA_buildNodes (topoRecords raw) k).symm.trans h)
  · intro k e h
    exact firstMax_spec _ e ((lookupA_buildNodes (topoRecords raw) k).symm.trans h)

/-- Witness for C1 on the spec's §8 example: the record surviving for
identity `"1"` is the `event_id = 7` one, preceded by the strictly
staler `event_id = 5` record. -/
theorem nodeReconciler_dedup_freshest_witness :
    ∃ l1 l2, entriesFor "1" (topoRecords rawSpecExample) = l1 ++ entrySpecB :: l2 ∧
      (∀ x ∈ l1, evOf x < evOf entrySpecB) ∧
      (∀ x ∈ l2, evOf x ≤ evOf entrySpecB) :=
  (nodeReconciler_dedup_freshest rawSpecExample).2.2 "1" entrySpecB (by rfl)

/-- C3 counterexample: a single-record (dict) payload is wrapped by the
worker path, but is skipped whole by the node-reconciler path
(`topology.py`: `if not isinstance(entries, list): continue`) — it does
not become a one-element sequence there. -/
theorem reportNormalizer_single_record_cex :
    normalizeWorkers (.pdict { queued := some 1 }) = [.pdict { queued := some 1 }] ∧
    normalizeTopo (.pdict { queued := some 1 }) = [] ∧
    ([] : List PyVal) ≠ [.pdict { queued := some 1 }] ∧
    topoRecords rawSingleDict = [] ∧
    get_topology "H" (.ok rawSingleDict) = .ok [] :=
  ⟨rfl, rfl, by simp, rfl, rfl⟩

/-- C3 amended: the worker path passes a sequence through element-wise,
wraps a single record, and turns any other shape into the empty
sequence; the node-reconciler path passes a sequence through
element-wise but yields the empty sequence for every non-sequence,
including a single record.  Neither path raises. -/
theorem reportNormalizer_amended (xs : List PyVal) (e : Entry) :
    normalizeWorkers (.plist xs) = xs ∧
    normalizeWorkers (.pdict e) = [.pdict e] ∧
    normalizeWorkers .pother = [] ∧
    normalizeTopo (.plist xs) = xs ∧
    normalizeTopo (.pdict e) = [] ∧
    normalizeTopo .pother = [] :=
  ⟨rfl, rfl, rfl, rfl, rfl, rfl⟩

/-- C4: a record whose `node_id` is present but not parseable as an
integer makes `get_topology` raise `ValueError` at
`node_id = int(raw_nid)` (`topology.py` line 47), failing the whole
query instead of being absorbed. -/
theorem topology_crash_on_unparseable_node_id :
    get_topology "H" (.ok rawStringNodeId) = .crash "ValueError" := rfl

/-- C6: a record with no `node_id` field gets its container id as its
identity key, and when the record surviving under key `k` has no
`node_id`, the exposed record is built without error and its numeric
`node_id` is the best-effort integer parse of `k`, `0` when `k` is not
parseable. -/
theorem node_identity_fallback (cid : String) (e : Entry)
    (h : e.node_id = none) (k lh : String) :
    keyOf cid e = cid ∧
    mkStat lh k e = .ok (statBody lh ((pyIntOfString k).getD 0) e) ∧
    (statBody lh ((pyIntOfString k).getD 0) e).node_id = (pyIntOfString k).getD 0 ∧
    (pyIntOfString k = none →
      (statBody lh ((pyIntOfString k).getD 0) e).node_id = 0) := by
  refine ⟨?_, ?_, rfl, ?_⟩
  · simp [keyOf, h]
  · simp [mkStat, h]
  · intro hp
    simp [statBody, hp]

/-- Witness for C6: container `"abc"`, record without `node_id`; the
identity key is `"abc"` and the exposed `node_id` is `0`. -/
theorem node_identity_fallback_witness :
    keyOf "abc" { queued := some 1 } = "abc" ∧
    mkStat "H" "abc" { queued := some 1 } =
      .ok (statBody "H" ((pyIntOfString "abc").getD 0) { queued := some 1 }) ∧
    (statBody "H" ((pyIntOfString "abc").getD 0) { queued := some 1 }).node_id =
      (pyIntOfString "abc").getD 0 ∧
    (pyIntOfString "abc" = none →
      (statBody "H" ((pyIntOfString "abc").getD 0) { queued := some 1 }).node_id = 0) :=
  node_identity_fallback "abc" { queued := some 1 } (by rfl) "abc" "H"

/-- C7 counterexample: for node `"c"` the staler record carries hostname
`"host-b"` — so hostname is not absent on every record for that node —
yet the exposed hostname is the local default `"LOCAL"`, because the
code consults only the surviving record (`entry.get("hostname") or
local_hostname`). -/
theorem topology_hostname_cex :
    get_topology "LOCAL" (.ok rawHostnameCex) =
      .ok [statBody "LOCAL" 0 entryFreshNoHost] ∧
    (statBody "LOCAL" 0 entryFreshNoHost).hostname = "LOCAL" ∧
    topoRecords rawHostnameCex =
      [("c", entryFreshNoHost), ("c", entryStaleWithHost)] ∧
    keyOf "c" entryFreshNoHost = "c" ∧
    keyOf "c" entryStaleWithHost = "c" ∧
    entryStaleWithHost.hostname = some "host-b" ∧
    "host-b" ≠ "" ∧ "host-b" ≠ "LOCAL" :=
  ⟨rfl, rfl, rfl, rfl, rfl, rfl, by decide, by decide⟩

/-- C7 amended: in every successful topology response, the exposed
record for each surviving entry takes its hostname from that surviving
record when present and nonempty and otherwise falls back to the local
default, and takes every other display field from the surviving record
with the type's zero value (`0`, `""`) when absent — no record is
rejected for a missing field. -/
theorem topology_fields_from_surviving (lh : String) (raw : RawMap)
    (stats : List NodeStat) (h : get_topology lh (.ok raw) = .ok stats) :
    List.Forall₂ (fun (ke : String × Entry) s =>
      s.hostname = specHostname lh ke.2 ∧
      s.ip_address = ke.2.ip_address.getD "" ∧
      s.cpu_usage_pct = ke.2.cpu_usage_pct.getD 0 ∧
      s.ram_usage_pct = ke.2.ram_usage_pct.getD 0 ∧
      s.gpu_count = ke.2.gpu_count.getD 0 ∧
      s.gpu_usage_pct = ke.2.gpu_usage_pct.getD 0 ∧
      s.hbm_usage_pct = ke.2.hbm_usage_pct.getD 0)
      (buildNodes (topoRecords raw)) stats := by
  have h2 : (match buildResult lh (buildNodes (topoRecords raw)) with
      | Except.error m => TopoResult.crash m
      | Except.ok ss => TopoResult.ok ss) = TopoResult.ok stats := h
  cases hb : buildResult lh (buildNodes (topoRecords raw)) with
  | error m => rw [hb] at h2; cases h2
  | ok ss =>
    rw [hb] at h2
    cases h2
    refine (buildResult_ok lh _ _ hb).imp ?_
    rintro ⟨k, e⟩ s ⟨n, rfl⟩
    exact ⟨rfl, rfl, rfl, rfl, rfl, rfl, rfl⟩

/-- Witness for C7 amended, on the hostname counterexample input. -/
theorem topology_fields_from_surviving_witness :
    List.Forall₂ (fun (ke : String × Entry) s =>
      s.hostname = specHostname "LOCAL" ke.2 ∧
      s.ip_address = ke.2.ip_address.getD "" ∧
      s.cpu_usage_pct = ke.2.cpu_usage_pct.getD 0 ∧
      s.ram_usage_pct = ke.2.ram_usage_pct.getD 0 ∧
      s.gpu_count = ke.2.gpu_count.getD 0 ∧
      s.gpu_usage_pct = ke.2.gpu_usage_pct.getD 0 ∧
      s.hbm_usage_pct = ke.2.hbm_usage_pct.getD 0)
      (buildNodes (topoRecords rawHostnameCex))
      [statBody "LOCAL" 0 entryFreshNoHost] :=
  topology_fields_from_surviving "LOCAL" rawHostnameCex
    [statBody "LOCAL" 0 entryFreshNoHost] (by rfl)

/-- C8: `get_topology` yields the explicit failure result carrying the
error exactly when the Telemetry Source fetch fails — a failed fetch is
never turned into a successful (empty) node list, and a successful
fetch never yields the failure result. -/
theorem topology_fetch_failure (lh : String) (fetch : Except String RawMap)
    (e : String) : get_topology lh fetch = .fetchError e ↔ fetch = .error e := by
  cases fetch with
  | error e0 => simp [get_topology]
  | ok raw =>
    simp only [get_topology]
    constructor
    · intro h
      split at h <;> cases h
    · intro h
      cases h

/-- Witness for C8: a concrete failed fetch maps to the failure result. -/
theorem topology_fetch_failure_witness :
    get_topology "H" (Except.error "runtime unreachable" : Except String RawMap) =
      .fetchError "runtime unreachable" :=
  (topology_fetch_failure "H" (.error "runtime unreachable")
    "runtime unreachable").mpr rfl

/-- C2: whenever `get_workers` produces a successful response, its
summary totals equal the sum of the corresponding field over every
record in the flattened worker list (a missing field contributing `0`),
and the reported count equals the length of that list. -/
theorem workerAggregator_totals (raw : RawMap) (r : WorkersOk)
    (h : get_workers (.ok raw) = .ok r) :
    r.workers = flattenWorkers raw ∧
    r.count = r.workers.length ∧
    r.queued = specSum (fun e => e.queued) r.workers ∧
    r.blocked = specSum (fun e => e.blocked) r.workers ∧
    r.processed = specSum (fun e => e.processed) r.workers := by
  have h2 : (match sumField (fun e => e.queued) (flattenWorkers raw) with
      | Except.error m => WorkersResult.crash m
      | Except.ok q =>
        match sumField (fun e => e.blocked) (flattenWorkers raw) with
        | Except.error m => WorkersResult.crash m
        | Except.ok b =>
          match sumField (fun e => e.processed) (flattenWorkers raw) with
          | Except.error m => WorkersResult.crash m
          | Except.ok p =>
            WorkersResult.ok
              ⟨flattenWorkers raw, (flattenWorkers raw).length, q, b, p⟩) =
      WorkersResult.ok r := h
  cases hq : sumField (fun e => e.queued) (flattenWorkers raw) with
  | error m => rw [hq] at h2; cases h2
  | ok q =>
    rw [hq] at h2
    cases hb : sumField (fun e => e.blocked) (flattenWorkers raw) with
    | error m => rw [hb] at h2; cases h2
    | ok b =>
      rw [hb] at h2
      cases hp : sumField (fun e => e.processed) (flattenWorkers raw) with
      | error m => rw [hp] at h2; cases h2
      | ok p =>
        rw [hp] at h2
        cases h2
        exact ⟨rfl, rfl, sumField_ok _ _ q hq, sumField_ok _ _ b hb,
          sumField_ok _ _ p hp⟩

/-- Witness for C2 on the spec's §8 worker example plus one
single-record container: three records, totals `5 / 1 / 5`. -/
theorem workerAggregator_totals_witness :
    (⟨flattenWorkers rawWorkersEx, 3, 5, 1, 5⟩ : WorkersOk).workers =
      flattenWorkers rawWorkersEx ∧
    (⟨flattenWorkers rawWorkersEx, 3, 5, 1, 5⟩ : WorkersOk).count =
      (⟨flattenWorkers rawWorkersEx, 3, 5, 1, 5⟩ : WorkersOk).workers.length ∧
    (⟨flattenWorkers rawWorkersEx, 3, 5, 1, 5⟩ : WorkersOk).queued =
      specSum (fun e => e.queued)
        (⟨flattenWorkers rawWorkersEx, 3, 5, 1, 5⟩ : WorkersOk).workers ∧
    (⟨flattenWorkers rawWorkersEx, 3, 5, 1, 5⟩ : WorkersOk).blocked =
      specSum (fun e => e.blocked)
        (⟨flattenWorkers rawWorkersEx, 3, 5, 1, 5⟩ : WorkersOk).workers ∧
    (⟨flattenWorkers rawWorkersEx, 3, 5, 1, 5⟩ : WorkersOk).processed =
      specSum (fun e => e.processed)
        (⟨flattenWorkers rawWorkersEx, 3, 5, 1, 5⟩ : WorkersOk).workers :=
  workerAggregator_totals rawWorkersEx ⟨flattenWorkers rawWorkersEx, 3, 5, 1, 5⟩
    (by rfl)

/-- C5 counterexample: with the client already connected, a fetch
failure makes `get_system` return the 503 body with
`connected = True` (`system.py` line 33), not `connected = False` as
the claim states. -/
theorem system_connected_flag_cex :
    get_system true (.error "boom") = .err true "boom" ∧
    SystemResult.err true "boom" ≠ SystemResult.err false "boom" :=
  ⟨rfl, by decide⟩

/-- C5 amended: `get_system` returns the failure result carrying the
error exactly when the fetch fails, and the connectivity flag of that
failure result equals the prior connection state (so it is `false`
whenever the client was not already connected); the failure result
carries no success fields. -/
theorem system_fetch_failure (isConn : Bool) (fetch : Except String RawMap)
    (b : Bool) (m : String) :
    get_system isConn fetch = .err b m ↔ fetch = .error m ∧ b = isConn := by
  cases fetch with
  | error e =>
    constructor
    · intro h
      injection h with h1 h2
      exact ⟨by rw [h2], by rw [h1]⟩
    · rintro ⟨he, hb⟩
      injection he with he
      rw [he, hb]
      rfl
  | ok raw =>
    constructor
    · intro h
      have h2 : (match sumField (fun e => e.queued) (flattenWorkers raw) with
          | Except.error m => SystemResult.crash m
          | Except.ok q =>
            match sumField (fun e => e.blocked) (flattenWorkers raw) with
            | Except.error m => SystemResult.crash m
            | Except.ok b =>
              match sumField (fun e => e.processed) (flattenWorkers raw) with
              | Except.error m => SystemResult.crash m
              | Except.ok p =>
                SystemResult.ok
                  ⟨true, (flattenWorkers raw).length, q, b, p⟩) =
          SystemResult.err b m := h
      split at h2 <;> (try split at h2) <;> (try split at h2) <;> cases h2
    · rintro ⟨he, _⟩
      cases he

/-- Witness for C5 amended: a failed fetch with the client not yet
connected yields the failure result with `connected = false`. -/
theorem system_fetch_failure_witness :
    get_system false (Except.error "no route" : Except String RawMap) =
      .err false "no route" :=
  (system_fetch_failure false (.error "no route") false "no route").mpr ⟨rfl, rfl⟩

/-- C9 counterexample: the first candidate config file exists (a config
source is found) but parses to YAML `null`; `_load_config` returns that
`None` and `get_pools` reports the "not found" result anyway. -/
theorem pools_null_config_cex :
    get_pools envNullCfg = .notFound ∧ configFound envNullCfg = true :=
  ⟨rfl, rfl⟩

/-- C9 amended: `get_pools` returns the "not found" result exactly when
no config source is found or the first found source parses to `null`;
when the found config is a mapping whose `compose` entries are given,
it returns one descriptor per entry, the four string fields each
defaulting to the empty string when absent. -/
theorem pools_notFound_condition (env : ConfigEnv) :
    (get_pools env = .notFound ↔
      firstFound env.files (candidatePaths env) = none ∨
      firstFound env.files (candidatePaths env) = some none) ∧
    (configFound env = false → get_pools env = .notFound) ∧
    (∀ es, load_config env = some (.cdict (.clist es)) →
      get_pools env = .ok (es.map mkDesc)) ∧
    (∀ pe, mkDesc pe = ⟨pe.mod_name.getD "", pe.pool_name.getD "",
      pe.pool_id.getD "", pe.pool_query.getD ""⟩) := by
  have hj : load_config env = (firstFound env.files (candidatePaths env)).join :=
    loadFrom_eq_join env.files (candidatePaths env)
  refine ⟨?_, ?_, ?_, fun pe => rfl⟩
  · rw [get_pools_notFound_iff_load_none, hj]
    cases hf : firstFound env.files (candidatePaths env) with
    | none => simp
    | some y => cases y <;> simp
  · intro hc
    rw [get_pools_notFound_iff_load_none, hj]
    unfold configFound at hc
    cases hf : firstFound env.files (candidatePaths env) with
    | none => simp
    | some y => rw [hf] at hc; simp at hc
  · intro es hl
    unfold get_pools
    rw [hl]
    rfl

/-- Witness for C9 amended: a found config with two compose entries
yields the two descriptors, the empty entry mapping to four empty
strings. -/
theorem pools_notFound_condition_witness :
    get_pools envTwoPools = .ok ([poolEntryFull, {}].map mkDesc) :=
  (pools_notFound_condition envTwoPools).2.2.1 [poolEntryFull, {}] rfl

/-- C10: a config source that is found and parses to a mapping whose
`compose` key is missing or `null` makes `get_pools` return the
successful empty pool list (`compose = cfg.get("compose", []) or []`),
not the "not found" result and not an error. -/
theorem pools_empty_compose (env : ConfigEnv) (comp : ComposeVal)
    (h : load_config env = some (.cdict comp))
    (h2 : comp = .absent ∨ comp = .cnull) :
    get_pools env = .ok [] := by
  unfold get_pools
  rw [h]
  rcases h2 with h2 | h2 <;> rw [h2] <;> rfl

/-- Witness for C10: both the missing-`compose` and the
`compose: null` configs yield the successful empty pool list. -/
theorem pools_empty_compose_witness :
    get_pools envAbsentCompose = .ok [] ∧ get_pools envNullCompose = .ok [] :=
  ⟨pools_empty_compose envAbsentCompose .absent rfl (Or.inl rfl),
   pools_empty_compose envNullCompose .cnull rfl (Or.inr rfl)⟩

end ClioViz
